import Mathlib

/-!
Verification of the one-shot-learning ant simulation
(src/oneshotlearning.py) against its specification.

The planning stage of `runMultiAntSim` is embedded as pure Lean
functions over rational coordinates (standing in for Python floats,
whose rounding plays no role in any claim here).  The only stochastic
primitive, `np.random.uniform(0, 2*pi)` at line 14, is abstracted as a
stream of unit direction vectors: draw k of the stream is the pair
(cos theta_k, sin theta_k) of the k-th heading the global numpy state
would produce.  Draws are consumed strictly sequentially, as the
single global numpy state is in the script.

The rendering stage (`init` at lines 90-97, `animate` at lines 99-123)
is embedded as a state-transition system on the six matplotlib artists
(three lines, three dots), polymorphic in the point type since the
scheduler logic only moves list elements around.
-/

namespace OneShot

/-- A planar point (x, y); rational coordinates stand in for floats. -/
abbrev Point := ℚ × ℚ

/-- The random source: draw k is the unit direction
(cos theta_k, sin theta_k) of the k-th heading sampled by
`np.random.uniform(0, 2 * np.pi)` (line 14).  The uniform distribution
itself is abstracted; only the sequence of drawn directions and their
order of consumption is modelled. -/
abbrev DirStream := ℕ → ℚ × ℚ

/-- One step of the random walk (lines 15-16): advance from `cur` by
`stepSize` along the drawn direction `dir`. -/
def searchStep (stepSize : ℚ) (cur : Point) (dir : ℚ × ℚ) : Point :=
  (cur.1 + stepSize * dir.1, cur.2 + stepSize * dir.2)

/-- Position of the random walk after k steps (lines 11-18): starts at
the origin and advances by `searchStep` on each draw. -/
def searchPos (stepSize : ℚ) (dirs : DirStream) : ℕ → Point
  | 0 => (0, 0)
  | k + 1 => searchStep stepSize (searchPos stepSize dirs k) (dirs k)

/-- `generate_random_search` (lines 10-19): returns the walk
[origin, position after 1 step, ..., position after `steps` steps]
together with the final position `(curX, curY)`.  `steps : ℤ` mirrors
the Python int; `range(steps)` performs `max steps 0` iterations, so
the walk has `steps.toNat + 1` points. -/
def generate_random_search (steps : ℤ) (stepSize : ℚ) (dirs : DirStream) :
    List Point × Point :=
  ((List.range (steps.toNat + 1)).map (searchPos stepSize dirs),
   searchPos stepSize dirs steps.toNat)

/-- `np.linspace a b num`: `num` evenly spaced samples from `a` to `b`
inclusive (`num = 0` gives the empty list, `num = 1` gives `[a]`). -/
def linspace (a b : ℚ) (num : ℕ) : List ℚ :=
  if num ≤ 1 then List.replicate num a
  else (List.range num).map
    (fun i : ℕ => a + (b - a) * (i : ℚ) / ((num : ℚ) - 1))

/-- `generate_homing` (lines 21-24): the straight-line path from
`start` to `stop`, sampled at `num` points (the x and y linspaces of
lines 22-23 paired up).  The call sites always use the default
`num_steps = 50`. -/
def generate_homing (start stop : Point) (num : ℕ) : List Point :=
  List.zip (linspace start.1 stop.1 num) (linspace start.2 stop.2 num)

/-- The trail written into `pheromone_memory` (lines 31-34): the
direct nest-to-food straight line sampled at 50 points, built from the
discovered food location alone. -/
def pheromoneTrail (food : Point) : List Point :=
  List.zip (linspace 0 food.1 50) (linspace 0 food.2 50)

/-- AgentOutcome (spec section 3): a label for the branch by which an
agent path was produced.  In the script the branches are distinguished
only by the printed messages; the labels name those branches. -/
inductive AgentOutcome where
  | SEARCHED
  | REUSED_MEMORY
  | FORCED_SEARCH
deriving DecidableEq, Repr

/-- Drop the first `n` draws of a direction stream: models that a
previous `generate_random_search` call already consumed them from the
global numpy state. -/
def shiftDirs (dirs : DirStream) (n : ℕ) : DirStream :=
  fun k => dirs (k + n)

/-- Ant 2 (lines 40-46): if the memory slot is occupied, reuse the
stored trail verbatim; otherwise perform a fresh random search (the
walk only, line 46).  Also returns the number of random draws the
branch consumed, to keep the global draw sequence faithful. -/
def ant2Path (mem : Option (List Point)) (steps : ℤ) (stepSize : ℚ)
    (dirs : DirStream) : List Point × AgentOutcome × ℕ :=
  match mem with
  | some trail => (trail, AgentOutcome.REUSED_MEMORY, 0)
  | none =>
      ((generate_random_search steps stepSize dirs).1,
       AgentOutcome.SEARCHED, steps.toNat)

/-- The sensor-failure flag: a local hardcoded to `True` at line 49 of
`runMultiAntSim`.  It is not a parameter of the entry operation. -/
def sensor_failure : Bool := true

/-- Ant 3 (lines 48-59): reuse the memorized trail only when memory is
present and the flag is false (line 51); otherwise a fresh random
search followed by a homing leg back to the nest (lines 56-59). -/
def ant3Path (mem : Option (List Point)) (sensorFailure : Bool)
    (steps : ℤ) (stepSize : ℚ) (dirs : DirStream) :
    List Point × AgentOutcome :=
  match mem, sensorFailure with
  | some trail, false => (trail, AgentOutcome.REUSED_MEMORY)
  | _, _ =>
      let ws := generate_random_search steps stepSize dirs
      let home := generate_homing ws.2 (0, 0) 50
      (ws.1 ++ home, AgentOutcome.FORCED_SEARCH)

/-- Result of the planning stage of `runMultiAntSim` (lines 5-64). -/
structure SimResult where
  ant1_path : List Point
  ant2_path : List Point
  ant3_path : List Point
  food : Point
  memory : Option (List Point)
  outcome1 : AgentOutcome
  outcome2 : AgentOutcome
  outcome3 : AgentOutcome
deriving Repr

/-- `runMultiAntSim` (lines 5-64), planning stage.  The entry
operation takes only `steps` (default 150) and `stepSize` (default
1.0); the sensor-failure flag is the hardcoded local `sensor_failure`.
`dirs` models the global numpy draw sequence: ant 1 consumes draws
0..steps-1, and ant 3, searching afresh, consumes the draws after all
previously consumed ones. -/
def runMultiAntSim (steps : ℤ) (stepSize : ℚ) (dirs : DirStream) :
    SimResult :=
  let ws := generate_random_search steps stepSize dirs
  let a1_home := generate_homing ws.2 (0, 0) 50
  let mem : Option (List Point) := some (pheromoneTrail ws.2)
  let a2 := ant2Path mem steps stepSize (shiftDirs dirs steps.toNat)
  let a3 := ant3Path mem sensor_failure steps stepSize
      (shiftDirs dirs (steps.toNat + a2.2.2))
  { ant1_path := ws.1 ++ a1_home
    ant2_path := a2.1
    ant3_path := a3.1
    food := ws.2
    memory := mem
    outcome1 := AgentOutcome.SEARCHED
    outcome2 := a2.2.1
    outcome3 := a3.2 }

/-- The value of the `pheromone_memory` variable at each of the four
program points that touch it: its initialization to `None` (line 8),
the single write after ant 1 finds food (lines 31-34), the read at ant
2 check (line 41), and the read at ant 3 check (line 51).  The reads
do not modify the slot, so the written value persists unchanged. -/
def memoryTrace (steps : ℤ) (stepSize : ℚ) (dirs : DirStream) :
    List (Option (List Point)) :=
  let food := (generate_random_search steps stepSize dirs).2
  [none, some (pheromoneTrail food), some (pheromoneTrail food),
   some (pheromoneTrail food)]

/-- The memory trace as a function of the discovered food location
alone: what the trace must be if it depends on nothing else. -/
def memTraceFromFood (food : Point) : List (Option (List Point)) :=
  [none, some (pheromoneTrail food), some (pheromoneTrail food),
   some (pheromoneTrail food)]

/-- Number of positions at which consecutive entries of a memory trace
differ, i.e. how many times the slot changed value. -/
def changeCount : List (Option (List Point)) → ℕ
  | a :: b :: rest => (if a = b then 0 else 1) + changeCount (b :: rest)
  | _ => 0

/-!
The rendering stage.  The six matplotlib artists are the mutable state
the `animate` closure writes into; `set_data` on a line replaces its
point list, `set_data` on a dot replaces its (singleton) point list.
The scheduler logic is polymorphic in the point type: it only takes
prefixes and reads elements.  `getD` with the `default` element models
Python indexing; every access performed for an in-range frame on the
nonempty paths of a run is proved in bounds separately.
-/

/-- The data held by the six artists: the three path lines and the
three current-position dots (a dot holds a singleton list, or the
empty list when cleared). -/
structure FrameState (α : Type) where
  line1 : List α
  dot1 : List α
  line2 : List α
  dot2 : List α
  line3 : List α
  dot3 : List α
deriving DecidableEq, Repr

/-- The three composed agent paths the animation closures capture
(`ant1_pathX/Y`, `ant2_pathX/Y`, `ant3_pathX/Y`). -/
structure AnimCtx (α : Type) where
  p1 : List α
  p2 : List α
  p3 : List α

/-- `totalFrames` (lines 61-64): the sum of the three path lengths. -/
def totalFrames {α : Type} (c : AnimCtx α) : ℕ :=
  c.p1.length + c.p2.length + c.p3.length

/-- `init` (lines 90-97): clears all six artists. -/
def initFrame (α : Type) : FrameState α :=
  ⟨[], [], [], [], [], []⟩

/-- Python `xs[-1]`: the last element of a (nonempty) list. -/
def lastElem {α : Type} [Inhabited α] (xs : List α) : α :=
  xs.getD (xs.length - 1) default

/-- `animate i` (lines 99-123): updates the artists for frame i and
returns the resulting artist state.  Each branch writes only the
artists of its own phase and of the completed earlier phases; the
artists of later phases keep whatever data they already held (there is
no `set_data` for them in that branch).  In the third phase the
partial-path update of ant 3 is guarded by `idx < len3` (line 119),
while ant 1 and ant 2 are set to their full paths unconditionally. -/
def animate {α : Type} [Inhabited α] (c : AnimCtx α) (i : ℕ)
    (s : FrameState α) : FrameState α :=
  if i < c.p1.length then
    { s with
      line1 := c.p1.take (i + 1)
      dot1 := [c.p1.getD i default] }
  else if i < c.p1.length + c.p2.length then
    let idx := i - c.p1.length
    { s with
      line1 := c.p1
      dot1 := [lastElem c.p1]
      line2 := c.p2.take (idx + 1)
      dot2 := [c.p2.getD idx default] }
  else
    let idx := i - (c.p1.length + c.p2.length)
    if idx < c.p3.length then
      { s with
        line1 := c.p1
        dot1 := [lastElem c.p1]
        line2 := c.p2
        dot2 := [lastElem c.p2]
        line3 := c.p3.take (idx + 1)
        dot3 := [c.p3.getD idx default] }
    else
      { s with
        line1 := c.p1
        dot1 := [lastElem c.p1]
        line2 := c.p2
        dot2 := [lastElem c.p2] }

/-- The artist state displayed at frame i when the frames are rendered
in order from `init`, which is how `FuncAnimation` drives the closure
(line 126): `init`, then `animate 0`, `animate 1`, and so on. -/
def stateAt {α : Type} [Inhabited α] (c : AnimCtx α) : ℕ → FrameState α
  | 0 => animate c 0 (initFrame α)
  | i + 1 => animate c (i + 1) (stateAt c i)

/-- Modelled from the spec (section 4.4): the FrameState the spec says
`stateAt i` renders — completed agents fully drawn with the marker at
the last path point, the active agent drawn up to and including its
local index with the marker there, agents of later phases empty with
no marker. -/
def frameStateSpec {α : Type} [Inhabited α] (c : AnimCtx α) (i : ℕ) :
    FrameState α :=
  if i < c.p1.length then
    ⟨c.p1.take (i + 1), [c.p1.getD i default], [], [], [], []⟩
  else if i < c.p1.length + c.p2.length then
    ⟨c.p1, [lastElem c.p1],
     c.p2.take (i - c.p1.length + 1), [c.p2.getD (i - c.p1.length) default],
     [], []⟩
  else
    ⟨c.p1, [lastElem c.p1], c.p2, [lastElem c.p2],
     c.p3.take (i - (c.p1.length + c.p2.length) + 1),
     [c.p3.getD (i - (c.p1.length + c.p2.length)) default]⟩

/-- The (index, length) pair of every element access `animate`
performs at frame i: `p1[i]` at line 102, `p1[-1]` at lines 106 and
114, `p2[idx]` at line 110, `p2[-1]` at line 116, and `p3[idx]` at
line 121 (guarded by `idx < len3` at line 119).  Prefix slices clamp
and access no element. -/
def animateAccesses {α : Type} (c : AnimCtx α) (i : ℕ) : List (ℕ × ℕ) :=
  if i < c.p1.length then [(i, c.p1.length)]
  else if i < c.p1.length + c.p2.length then
    [(c.p1.length - 1, c.p1.length), (i - c.p1.length, c.p2.length)]
  else if i - (c.p1.length + c.p2.length) < c.p3.length then
    [(c.p1.length - 1, c.p1.length), (c.p2.length - 1, c.p2.length),
     (i - (c.p1.length + c.p2.length), c.p3.length)]
  else
    [(c.p1.length - 1, c.p1.length), (c.p2.length - 1, c.p2.length)]

/-- Rendering the frames in order from `init` realises the spec frame
description: the artist state after frame i is exactly
`frameStateSpec c i`, for every in-range i.  This is the backbone of
the FrameScheduler claims. -/
theorem stateAt_eq_spec {α : Type} [Inhabited α] (c : AnimCtx α) :
    ∀ i, i < totalFrames c → stateAt c i = frameStateSpec c i := by
  intro i
  unfold totalFrames
  induction i with
  | zero =>
    intro h0
    show animate c 0 (initFrame α) = frameStateSpec c 0
    by_cases h1 : 0 < c.p1.length
    · unfold animate frameStateSpec initFrame
      simp only [if_pos h1]
    · by_cases h2 : 0 < c.p1.length + c.p2.length
      · unfold animate frameStateSpec initFrame
        simp only [if_neg h1, if_pos h2]
      · have hidx : 0 - (c.p1.length + c.p2.length) < c.p3.length := by
          omega
        unfold animate frameStateSpec initFrame
        simp only [if_neg h1, if_neg h2, if_pos hidx]
  | succ i ih =>
    intro h
    have ihs := ih (by omega)
    show animate c (i + 1) (stateAt c i) = frameStateSpec c (i + 1)
    rw [ihs]
    by_cases h1 : i + 1 < c.p1.length
    · have h1i : i < c.p1.length := by omega
      unfold animate frameStateSpec
      simp only [if_pos h1, if_pos h1i]
    · by_cases h2 : i + 1 < c.p1.length + c.p2.length
      · unfold animate frameStateSpec
        by_cases h1i : i < c.p1.length
        · simp only [if_neg h1, if_pos h2, if_pos h1i]
        · have h2i : i < c.p1.length + c.p2.length := by omega
          simp only [if_neg h1, if_pos h2, if_neg h1i, if_pos h2i]
      · have hidx : i + 1 - (c.p1.length + c.p2.length) < c.p3.length := by
          omega
        unfold animate frameStateSpec
        simp only [if_neg h1, if_neg h2, if_pos hidx]

/-!  Claims about the planning stage. -/

/-- C1: in every run the pheromone memory is present when ant 2 checks
it, ant 2 full path equals the memory content exactly, coordinate for
coordinate, its outcome is REUSED_MEMORY, and had memory been absent
ant 2 would instead have performed a fresh random search. -/
theorem ant2_reuses_memory_exactly (steps : ℤ) (stepSize : ℚ)
    (dirs : DirStream) :
    (runMultiAntSim steps stepSize dirs).memory.isSome = true ∧
    some (runMultiAntSim steps stepSize dirs).ant2_path =
      (runMultiAntSim steps stepSize dirs).memory ∧
    (runMultiAntSim steps stepSize dirs).outcome2 =
      AgentOutcome.REUSED_MEMORY ∧
    ∀ dirs2 : DirStream,
      (ant2Path none steps stepSize dirs2).1 =
        (generate_random_search steps stepSize dirs2).1 :=
  ⟨rfl, rfl, rfl, fun _ => rfl⟩

/-- C2, counterexample: the claim says the entry operation accepts a
sensorFailure boolean under which, when false, ant 3 reaches outcome
REUSED_MEMORY (memory being always present).  In the code the flag is
the local `sensor_failure = True` of line 49, not a parameter of
`runMultiAntSim` (line 5), so no input whatsoever produces outcome
REUSED_MEMORY for ant 3. -/
theorem sensorFailure_not_a_parameter_cex :
    ¬ ∃ (steps : ℤ) (stepSize : ℚ) (dirs : DirStream),
      (runMultiAntSim steps stepSize dirs).outcome3 =
        AgentOutcome.REUSED_MEMORY := by
  rintro ⟨steps, stepSize, dirs, h⟩
  exact AgentOutcome.noConfusion h

/-- C2, amended: `sensor_failure` is hardcoded true inside the run, so
every run has ant 3 perform a fresh random search (on draws disjoint
from those ant 1 consumed) concatenated with a homing path, outcome
FORCED_SEARCH; the reuse branch exists in the code and yields the
memorized trail with outcome REUSED_MEMORY exactly when memory is
present and the flag is false, and the flag true always forces the
search branch. -/
theorem ant3_policy_and_forced_search (steps : ℤ) (stepSize : ℚ)
    (dirs : DirStream) :
    (runMultiAntSim steps stepSize dirs).outcome3 =
      AgentOutcome.FORCED_SEARCH ∧
    (runMultiAntSim steps stepSize dirs).ant3_path =
      (generate_random_search steps stepSize
          (shiftDirs dirs steps.toNat)).1 ++
        generate_homing
          (generate_random_search steps stepSize
            (shiftDirs dirs steps.toNat)).2 (0, 0) 50 ∧
    (∀ (trail : List Point) (d2 : DirStream),
      ant3Path (some trail) false steps stepSize d2 =
        (trail, AgentOutcome.REUSED_MEMORY)) ∧
    (∀ (mem : Option (List Point)) (d2 : DirStream),
      (ant3Path mem true steps stepSize d2).2 =
        AgentOutcome.FORCED_SEARCH) := by
  refine ⟨rfl, rfl, fun _ _ => rfl, fun mem _ => ?_⟩
  cases mem <;> rfl

/-- C6: the pheromone memory is written exactly once, by ant 1, with
the direct nest-to-food line sampled at the homing resolution of 50
points; the trace of the slot over the whole run is determined by the
discovered food location alone (independent of the noisy outward
walk), changes value exactly once, and both later reads observe the
written content unchanged. -/
theorem pheromone_write_once_invariant (steps : ℤ) (stepSize : ℚ)
    (dirs : DirStream) :
    memoryTrace steps stepSize dirs =
      memTraceFromFood ((generate_random_search steps stepSize dirs).2) ∧
    changeCount (memoryTrace steps stepSize dirs) = 1 ∧
    (runMultiAntSim steps stepSize dirs).memory =
      some (pheromoneTrail
        ((generate_random_search steps stepSize dirs).2)) ∧
    pheromoneTrail ((generate_random_search steps stepSize dirs).2) =
      generate_homing (0, 0)
        ((generate_random_search steps stepSize dirs).2) 50 := by
  refine ⟨rfl, ?_, rfl, rfl⟩
  simp [memoryTrace, changeCount]

/-!  Claims about the path synthesizer. -/

/-- An element access lemma for the walk returned by
`generate_random_search`: entry k is the position after k steps. -/
theorem walk_get (z : ℚ) (d : DirStream) (n k : ℕ) (hk : k < n + 1) :
    ((List.range (n + 1)).map (searchPos z d)).get? k =
      some (searchPos z d k) := by
  rw [List.get?_map, List.get?_range hk]
  rfl

/-- C7: for positive stepCount and stepSize, the returned walk has
exactly stepCount + 1 points, starts at the origin, advances from each
point by stepSize times the drawn unit direction, and the returned end
point is the last point of the walk. -/
theorem randomSearch_structure (steps : ℤ) (stepSize : ℚ)
    (dirs : DirStream) (hs : 0 < steps) (hz : 0 < stepSize) :
    (generate_random_search steps stepSize dirs).1.length =
      steps.toNat + 1 ∧
    (generate_random_search steps stepSize dirs).1.head? =
      some ((0 : ℚ), (0 : ℚ)) ∧
    (∀ k, k < steps.toNat →
      (generate_random_search steps stepSize dirs).1.get? (k + 1) =
        Option.map
          (fun p : Point =>
            (p.1 + stepSize * (dirs k).1, p.2 + stepSize * (dirs k).2))
          ((generate_random_search steps stepSize dirs).1.get? k)) ∧
    (generate_random_search steps stepSize dirs).1.getLast? =
      some (generate_random_search steps stepSize dirs).2 := by
  simp only [generate_random_search]
  refine ⟨by simp, ?_, ?_, ?_⟩
  · rw [← List.get?_zero, walk_get stepSize dirs steps.toNat 0 (by omega)]
    rfl
  · intro k hk
    rw [walk_get stepSize dirs steps.toNat (k + 1) (by omega),
      walk_get stepSize dirs steps.toNat k (by omega)]
    rfl
  · rw [List.getLast?_eq_get?, List.length_map, List.length_range]
    exact walk_get stepSize dirs steps.toNat steps.toNat (by omega)

/-- A fixed direction stream used to instantiate hypotheses of the
path-synthesizer theorems: every draw heads along the positive x axis
(cos = 1, sin = 0). -/
def dirsEx : DirStream := fun _ => (1, 0)

/-- C7 witness at steps = 2, stepSize = 1. -/
theorem randomSearch_structure_witness :
    0 < (2 : ℤ) ∧ 0 < (1 : ℚ) ∧
    (generate_random_search 2 1 dirsEx).1.length = (2 : ℤ).toNat + 1 :=
  ⟨by decide, by decide,
    (randomSearch_structure 2 1 dirsEx (by decide) (by decide)).1⟩

/-- A linspace always has exactly `num` samples. -/
theorem linspace_length (a b : ℚ) (num : ℕ) :
    (linspace a b num).length = num := by
  unfold linspace
  split <;> simp

/-- A nonempty linspace starts exactly at its start value. -/
theorem linspace_head (a b : ℚ) (num : ℕ) (h : 0 < num) :
    (linspace a b num).head? = some a := by
  unfold linspace
  split
  · have h1 : num = 1 := by omega
    subst h1
    rfl
  · rw [← List.get?_zero, List.get?_map, List.get?_range h]
    simp

/-- Pairing two lists starts at the pair of their first elements. -/
theorem zip_head (l1 l2 : List ℚ) (x y : ℚ) (h1 : l1.head? = some x)
    (h2 : l2.head? = some y) :
    (List.zip l1 l2).head? = some (x, y) := by
  cases l1 with
  | nil => simp at h1
  | cons a t1 =>
    cases l2 with
    | nil => simp at h2
    | cons b t2 =>
      simp only [List.head?_cons, Option.some.injEq] at h1 h2
      subst h1
      subst h2
      rfl

/-- C8: the full ant 1 path is the outward walk concatenated with the
homing leg, so its length is stepCount + 1 + 50; the shared-endpoint
convention is that the discovered food location is both the last walk
point and the first homing point, hence is counted in both legs. -/
theorem ant1_path_length (steps : ℤ) (stepSize : ℚ) (dirs : DirStream)
    (hs : 0 ≤ steps) :
    (runMultiAntSim steps stepSize dirs).ant1_path.length =
      steps.toNat + 1 + 50 ∧
    (runMultiAntSim steps stepSize dirs).ant1_path =
      (generate_random_search steps stepSize dirs).1 ++
        generate_homing (generate_random_search steps stepSize dirs).2
          (0, 0) 50 ∧
    (generate_random_search steps stepSize dirs).1.getLast? =
      some (generate_random_search steps stepSize dirs).2 ∧
    (generate_homing (generate_random_search steps stepSize dirs).2
        (0, 0) 50).head? =
      some (generate_random_search steps stepSize dirs).2 := by
  refine ⟨?_, rfl, ?_, ?_⟩
  · show ((generate_random_search steps stepSize dirs).1 ++
      generate_homing (generate_random_search steps stepSize dirs).2
        (0, 0) 50).length = steps.toNat + 1 + 50
    rw [List.length_append]
    have hw : (generate_random_search steps stepSize dirs).1.length =
        steps.toNat + 1 := by
      simp [generate_random_search]
    have hh : (generate_homing
        (generate_random_search steps stepSize dirs).2 (0, 0) 50).length =
        50 := by
      unfold generate_homing
      rw [List.length_zip, linspace_length, linspace_length]
      omega
    omega
  · simp only [generate_random_search]
    rw [List.getLast?_eq_get?, List.length_map, List.length_range]
    exact walk_get stepSize dirs steps.toNat steps.toNat (by omega)
  · unfold generate_homing
    rw [zip_head _ _ (generate_random_search steps stepSize dirs).2.1
      (generate_random_search steps stepSize dirs).2.2
      (linspace_head _ _ 50 (by omega))
      (linspace_head _ _ 50 (by omega))]

/-- C8 witness at steps = 1, stepSize = 1 along dirsEx. -/
theorem ant1_path_length_witness :
    (0 : ℤ) ≤ 1 ∧
    (runMultiAntSim 1 1 dirsEx).ant1_path.length = (1 : ℤ).toNat + 1 + 50 :=
  ⟨by decide, (ant1_path_length 1 1 dirsEx (by decide)).1⟩

/-- C9, counterexample: with stepCount = 0, and likewise with a
negative stepCount, the search silently returns the degenerate
one-point path at the origin, and with sampleCount = 0 the homing path
is silently empty — no InvalidParameter failure happens anywhere. -/
theorem no_invalid_parameter_error_cex :
    (generate_random_search 0 1 dirsEx).1 = [((0 : ℚ), (0 : ℚ))] ∧
    (generate_random_search (-3) 1 dirsEx).1 = [((0 : ℚ), (0 : ℚ))] ∧
    generate_homing ((0 : ℚ), (0 : ℚ)) ((3 : ℚ), (4 : ℚ)) 0 = [] :=
  ⟨rfl, rfl, rfl⟩

/-- C9, amended: the code performs no parameter validation at all.
For stepCount ≤ 0 the search silently yields the single-point origin
path with the origin as its end point (the Python range performs no
iteration), and a homing call with sampleCount = 0 silently yields the
empty path; no error of any kind is raised. -/
theorem degenerate_params_silent (steps : ℤ) (stepSize : ℚ)
    (dirs : DirStream) (hs : steps ≤ 0) :
    (generate_random_search steps stepSize dirs).1 =
      [((0 : ℚ), (0 : ℚ))] ∧
    (generate_random_search steps stepSize dirs).2 =
      ((0 : ℚ), (0 : ℚ)) ∧
    ∀ start stop : Point, generate_homing start stop 0 = [] := by
  have h0 : steps.toNat = 0 := Int.toNat_of_nonpos hs
  unfold generate_random_search
  rw [h0]
  exact ⟨rfl, rfl, fun _ _ => rfl⟩

/-- A second fixed direction stream, heading along the positive y
axis, for the C9 witness. -/
def dirsEx2 : DirStream := fun _ => (0, 1)

/-- C9 witness at steps = -3. -/
theorem degenerate_params_silent_witness :
    (-3 : ℤ) ≤ 0 ∧
    (generate_random_search (-3) 1 dirsEx2).1 = [((0 : ℚ), (0 : ℚ))] :=
  ⟨by decide, (degenerate_params_silent (-3) 1 dirsEx2 (by decide)).1⟩

/-!  Claims about the frame scheduler. -/

/-- C3: for every in-range frame, the sequentially rendered state
shows the agents of completed phases fully drawn with markers at their
last points, the active-phase agent drawn up to and including its
local index with its marker there, and the agents of later phases
empty with no marker — exactly `frameStateSpec`. -/
theorem stateAt_renders_phases {α : Type} [Inhabited α] (c : AnimCtx α)
    (h1 : 0 < c.p1.length) (h2 : 0 < c.p2.length) (h3 : 0 < c.p3.length)
    (i : ℕ) (hi : i < totalFrames c) :
    stateAt c i = frameStateSpec c i :=
  stateAt_eq_spec c i hi

/-- A concrete three-path context over ℕ points for witnesses. -/
def cEx : AnimCtx ℕ := ⟨[10, 11], [20], [30]⟩

/-- C3 witness: a concrete context with nonempty paths, queried in the
middle of phase two. -/
theorem stateAt_renders_phases_witness :
    0 < cEx.p1.length ∧ 2 < totalFrames cEx ∧
    stateAt cEx 2 = frameStateSpec cEx 2 :=
  ⟨by decide, by decide,
    stateAt_renders_phases cEx (by decide) (by decide) (by decide) 2
      (by decide)⟩

/-- A concrete context used to exhibit the history dependence of the
animate closure. -/
def cHist : AnimCtx ℕ := ⟨[0, 1], [2], [3]⟩

/-- C4, counterexample: rendering frame 0 directly after init differs
from rendering frame 0 after frame 2 has been rendered — the phase-two
branch of frame 2 wrote into the ant 2 line and the phase-one branch
of frame 0 does not clear it.  The per-frame output therefore depends
on previously rendered frames, so it is not a pure re-callable
function of the frame index. -/
theorem stateAt_not_pure_cex :
    animate cHist 0 (animate cHist 2 (initFrame ℕ)) ≠
      animate cHist 0 (initFrame ℕ) := by
  decide

/-- C4, amended: immediately re-querying the same frame index does
yield an identical FrameState (the animate update is idempotent), but
out-of-order re-querying may differ because each branch leaves the
artists of later phases untouched. -/
theorem animate_idempotent {α : Type} [Inhabited α] (c : AnimCtx α)
    (i : ℕ) (s : FrameState α) :
    animate c i (animate c i s) = animate c i s := by
  unfold animate
  by_cases hA : i < c.p1.length
  · simp only [if_pos hA]
  · by_cases hB : i < c.p1.length + c.p2.length
    · simp only [if_neg hA, if_pos hB]
    · by_cases hC : i - (c.p1.length + c.p2.length) < c.p3.length
      · simp only [if_neg hA, if_neg hB, if_pos hC]
      · simp only [if_neg hA, if_neg hB, if_neg hC]

/-- The three drawn-path lengths of the rendered state have these
closed forms, for every in-range frame. -/
theorem stateAt_line_lengths {α : Type} [Inhabited α] (c : AnimCtx α)
    (i : ℕ) (hi : i < totalFrames c) :
    (stateAt c i).line1.length = min (i + 1) c.p1.length ∧
    (stateAt c i).line2.length =
      (if i < c.p1.length then 0
       else min (i - c.p1.length + 1) c.p2.length) ∧
    (stateAt c i).line3.length =
      (if i < c.p1.length + c.p2.length then 0
       else min (i - (c.p1.length + c.p2.length) + 1) c.p3.length) := by
  rw [stateAt_eq_spec c i hi]
  unfold totalFrames at hi
  unfold frameStateSpec
  by_cases ha : i < c.p1.length
  · have hb : i < c.p1.length + c.p2.length := by omega
    simp only [if_pos ha, if_pos hb, List.length_take, List.length_nil]
    refine ⟨?_, ?_, ?_⟩ <;> first | trivial | omega
  · by_cases hb : i < c.p1.length + c.p2.length
    · simp only [if_neg ha, if_pos hb, List.length_take, List.length_nil]
      refine ⟨?_, ?_, ?_⟩ <;> first | trivial | omega
    · simp only [if_neg ha, if_neg hb, List.length_take]
      refine ⟨?_, ?_, ?_⟩ <;> first | trivial | omega

/-- C5: per agent, the drawn-path length is non-decreasing in the
frame index; at each frame step at most one agent drawn length changes
(at most one agent actively animating); and the final frame shows all
three full paths with the markers at the endpoints. -/
theorem reveal_monotone_one_active_final_full {α : Type} [Inhabited α]
    (c : AnimCtx α) (h1 : 0 < c.p1.length) (h2 : 0 < c.p2.length)
    (h3 : 0 < c.p3.length) :
    (∀ i j, i ≤ j → j < totalFrames c →
      (stateAt c i).line1.length ≤ (stateAt c j).line1.length ∧
      (stateAt c i).line2.length ≤ (stateAt c j).line2.length ∧
      (stateAt c i).line3.length ≤ (stateAt c j).line3.length) ∧
    (∀ i, i + 1 < totalFrames c →
      (if (stateAt c (i + 1)).line1.length = (stateAt c i).line1.length
        then 0 else 1) +
      (if (stateAt c (i + 1)).line2.length = (stateAt c i).line2.length
        then 0 else 1) +
      (if (stateAt c (i + 1)).line3.length = (stateAt c i).line3.length
        then 0 else 1) ≤ 1) ∧
    stateAt c (totalFrames c - 1) =
      ⟨c.p1, [lastElem c.p1], c.p2, [lastElem c.p2], c.p3,
        [lastElem c.p3]⟩ := by
  refine ⟨?_, ?_, ?_⟩
  · intro i j hij hj
    have hi : i < totalFrames c := by
      unfold totalFrames at *
      omega
    obtain ⟨a1, a2, a3⟩ := stateAt_line_lengths c i hi
    obtain ⟨b1, b2, b3⟩ := stateAt_line_lengths c j hj
    rw [a1, a2, a3, b1, b2, b3]
    unfold totalFrames at hj
    refine ⟨by omega, ?_, ?_⟩ <;> split_ifs <;> omega
  · intro i h
    have hi : i < totalFrames c := by
      unfold totalFrames at *
      omega
    obtain ⟨a1, a2, a3⟩ := stateAt_line_lengths c i hi
    obtain ⟨b1, b2, b3⟩ := stateAt_line_lengths c (i + 1) h
    rw [a1, a2, a3, b1, b2, b3]
    unfold totalFrames at h
    split_ifs <;> omega
  · have ht : totalFrames c - 1 < totalFrames c := by
      unfold totalFrames
      omega
    rw [stateAt_eq_spec c (totalFrames c - 1) ht]
    unfold frameStateSpec
    have hA : ¬ totalFrames c - 1 < c.p1.length := by
      unfold totalFrames
      omega
    have hB : ¬ totalFrames c - 1 < c.p1.length + c.p2.length := by
      unfold totalFrames
      omega
    rw [if_neg hA, if_neg hB]
    have e1 : totalFrames c - 1 - (c.p1.length + c.p2.length) =
        c.p3.length - 1 := by
      unfold totalFrames
      omega
    rw [e1]
    have e2 : c.p3.length - 1 + 1 = c.p3.length := by omega
    rw [e2, List.take_length]
    rfl

/-- C5 witness on a concrete context: the final frame shows the three
full paths with the markers at the endpoints. -/
theorem reveal_monotone_one_active_final_full_witness :
    0 < cEx.p1.length ∧
    stateAt cEx (totalFrames cEx - 1) =
      ⟨cEx.p1, [lastElem cEx.p1], cEx.p2, [lastElem cEx.p2], cEx.p3,
        [lastElem cEx.p3]⟩ :=
  ⟨by decide,
    (reveal_monotone_one_active_final_full cEx (by decide) (by decide)
      (by decide)).2.2⟩

/-- C10: every element access animate performs at an in-range frame on
the nonempty run paths is in bounds: ant 1 is indexed at i < len1 or
at its last element, ant 2 at idx = i - len1 < len2 or at its last
element, and the ant 3 partial access is guarded by idx < len3. -/
theorem animate_accesses_in_bounds {α : Type} (c : AnimCtx α)
    (h1 : 0 < c.p1.length) (h2 : 0 < c.p2.length) (i : ℕ)
    (hi : i < totalFrames c) :
    ∀ a ∈ animateAccesses c i, a.1 < a.2 := by
  intro a ha
  unfold totalFrames at hi
  unfold animateAccesses at ha
  split_ifs at ha with hA hB hC
  · rw [List.mem_singleton] at ha
    subst ha
    exact hA
  · rw [List.mem_cons, List.mem_singleton] at ha
    rcases ha with rfl | rfl <;> dsimp only <;> omega
  · rw [List.mem_cons, List.mem_cons, List.mem_singleton] at ha
    rcases ha with rfl | rfl | rfl <;> dsimp only <;> omega
  · rw [List.mem_cons, List.mem_singleton] at ha
    rcases ha with rfl | rfl <;> dsimp only <;> omega

/-- C10 witness: at frame 2 of the concrete context the ant 2 access
(idx = 1 within a length 2 list... here the ant 1 last-element access)
is listed and in bounds. -/
theorem animate_accesses_in_bounds_witness :
    ((1 : ℕ), (2 : ℕ)) ∈ animateAccesses cEx 2 ∧
    ((1 : ℕ), (2 : ℕ)).1 < ((1 : ℕ), (2 : ℕ)).2 :=
  ⟨by decide,
    animate_accesses_in_bounds cEx (by decide) (by decide) 2 (by decide)
      (1, 2) (by decide)⟩

end OneShot
